import Mathlib

/-!
Verification of the SVM playground core (`src/app/page.tsx`).

The numeric model: JavaScript numbers are embedded as `JSQ`, a rational
together with the three non-finite values `NaN`, `Infinity` and `-Infinity`.
The claims settled here concern control flow, ordering and exact arithmetic
identities, none of which depend on binary floating-point rounding, so the
rational embedding is faithful for them.  Kernel resolution needs `Real.sqrt`,
so that one subsystem lives over `ℝ`.

The external `ml-svm` binary solver is out of scope (spec §1); it is embedded
as an abstract training capability `trainFn` producing opaque `Classifier`
handles that expose `marginOne` and `predictOne`, exactly the capability
interface the core consumes.
-/

namespace SvmPlayground

/-- Embedding of a JavaScript number: a finite rational or one of the three
non-finite values. -/
inductive JSQ where
  | fin (x : ℚ)
  | nan
  | inf
  | negInf
deriving DecidableEq, Repr

/-- Test `Number.isFinite`. -/
def JSQ.isFinite : JSQ → Bool
  | .fin _ => true
  | _ => false

/-- JavaScript strict `>` on numbers: any comparison involving `NaN` is
false; `-Infinity` is below every finite value and `Infinity` above. -/
def jsGt : JSQ → JSQ → Bool
  | .nan, _ => false
  | _, .nan => false
  | .fin x, .fin y => decide (y < x)
  | .fin _, .inf => false
  | .fin _, .negInf => true
  | .inf, .inf => false
  | .inf, _ => true
  | .negInf, _ => false

/-- The rational carried by a finite `JSQ` (junk value `0` otherwise). -/
def toQ : JSQ → ℚ
  | .fin x => x
  | _ => 0

/-! ### Model of the JavaScript `Number(string)` conversion

`Number` is a platform builtin, not repository code.  The model below covers
the fragment the playground exercises: leading/trailing whitespace is
trimmed, the empty string converts to `0`, `Infinity` / `-Infinity` are
recognised, and otherwise an optionally signed decimal literal
(`digits`, `digits.digits`, `.digits`, `digits.`) is parsed exactly;
everything else converts to `NaN`. -/

/-- Numeric value of a digit character. -/
def digitVal (c : Char) : ℕ := c.toNat - '0'.toNat

/-- Value of a digit string read in base 10. -/
def natOfDigits (cs : List Char) : ℕ := cs.foldl (fun n c => 10 * n + digitVal c) 0

/-- Unsigned decimal literal: integer part, optional fraction part. -/
def parseDecMag (cs : List Char) : Option ℚ :=
  let intP := cs.takeWhile Char.isDigit
  let rest := cs.dropWhile Char.isDigit
  match rest with
  | [] => if intP = [] then none else some (natOfDigits intP)
  | '.' :: frac =>
    if frac.all Char.isDigit ∧ (intP ≠ [] ∨ frac ≠ []) then
      some ((natOfDigits intP : ℚ) + (natOfDigits frac : ℚ) / (10 ^ frac.length))
    else none
  | _ => none

/-- Optionally signed decimal literal. -/
def parseDecimal : List Char → Option ℚ
  | '-' :: rest => (parseDecMag rest).map Neg.neg
  | '+' :: rest => parseDecMag rest
  | cs => parseDecMag cs

/-- Trim leading and trailing whitespace, as `Number` does. -/
def jsTrim (cs : List Char) : List Char :=
  ((cs.dropWhile Char.isWhitespace).reverse.dropWhile Char.isWhitespace).reverse

/-- The `Number(string)` conversion on the fragment described above. -/
def jsNumber (s : String) : JSQ :=
  let t := jsTrim s.toList
  if t = [] then .fin 0
  else if t = "Infinity".toList ∨ t = "+Infinity".toList then .inf
  else if t = "-Infinity".toList then .negInf
  else
    match parseDecimal t with
    | some q => .fin q
    | none => .nan

/-! ### Feature extraction (`parseFeatureValue`, `computeFeaturesAndLabels`) -/

/-- Function `parseFeatureValue` (page.tsx 38–41): `Number(value)` when finite,
`NaN` otherwise. -/
def parseFeatureValue (value : String) : JSQ :=
  let parsed := jsNumber value
  if parsed.isFinite then parsed else .nan

/-- A parsed CSV row: an association list from column name to raw string. -/
abbrev Row := List (String × String)

/-- Access `row[column]` on a JavaScript record: the stored string, when present. -/
def rowLookup (row : Row) (column : String) : Option String :=
  (row.find? fun p => p.1 == column).map Prod.snd

/-- Evaluation of `parseFeatureValue(row[column])`: an absent key is `undefined`, and
`Number(undefined)` is `NaN`. -/
def cellNumber (row : Row) (column : String) : JSQ :=
  match rowLookup row column with
  | some s => parseFeatureValue s
  | none => .nan

/-- Evaluation of `String(row[labelColumn])`: `String(undefined)` is `"undefined"`. -/
def labelString (row : Row) (labelColumn : String) : String :=
  match rowLookup row labelColumn with
  | some s => s
  | none => "undefined"

/-- The errors `computeFeaturesAndLabels` can throw: the single combined
configuration guard message (page.tsx 174) and the per-column non-numeric
message (page.tsx 184), which carries only the column name. -/
inductive ExtractError where
  | configMissing
  | nonNumeric (column : String)
deriving DecidableEq, Repr

/-- The inner `featureColumns.map` of page.tsx 181–187: parse each selected
cell left to right, throwing `nonNumeric` at the first non-finite value. -/
def rowFeatures : List String → Row → Except ExtractError (List ℚ)
  | [], _ => .ok []
  | c :: cs, row =>
    match cellNumber row c with
    | .fin v => (rowFeatures cs row).map (fun vs => v :: vs)
    | _ => .error (.nonNumeric c)

/-- The row loop of page.tsx 180–190: features and labels accumulated in row
order, aborting at the first bad row. -/
def extractRows (featureColumns : List String) (labelColumn : String) :
    List Row → Except ExtractError (List (List ℚ) × List String)
  | [] => .ok ([], [])
  | row :: rest =>
    match rowFeatures featureColumns row with
    | .error e => .error e
    | .ok fv =>
      match extractRows featureColumns labelColumn rest with
      | .error e => .error e
      | .ok (fs, ls) => .ok (fv :: fs, labelString row labelColumn :: ls)

/-- Function `computeFeaturesAndLabels` (page.tsx 172–193).  The guard mirrors
`!parsedRows.length || !featureColumns.length || !labelColumn`: the third
disjunct is falsiness of the label column *name* (the empty string). -/
def computeFeaturesAndLabels (parsedRows : List Row) (featureColumns : List String)
    (labelColumn : String) : Except ExtractError (List (List ℚ) × List String) :=
  if parsedRows.length = 0 ∨ featureColumns.length = 0 ∨ labelColumn = "" then
    .error .configMissing
  else
    extractRows featureColumns labelColumn parsedRows

/-! ### Kernel resolution (`KERNEL_MAP`, `resolveKernelOptions`) -/

/-- UI-level kernel selection keys (page.tsx 8). -/
inductive KernelKey where
  | LINEAR
  | POLY
  | RBF
  | SIGMOID
deriving DecidableEq, Repr

/-- Kernel names the solver accepts (page.tsx 9). -/
inductive SVMKernel where
  | linear
  | polynomial
  | rbf
  | sigmoid
deriving DecidableEq, Repr

/-- Table `KERNEL_MAP` (page.tsx 31–36). -/
def KERNEL_MAP : KernelKey → SVMKernel
  | .LINEAR => .linear
  | .POLY => .polynomial
  | .RBF => .rbf
  | .SIGMOID => .sigmoid

/-- The kernel-option records `resolveKernelOptions` can return
(page.tsx 51, 55, 59). -/
inductive KernelOptions where
  | rbf (sigma : ℝ)
  | poly (degree constant multiplier : ℝ)
  | sigmoid (constant multiplier : ℝ)

/-- Function `resolveKernelOptions` (page.tsx 43–63).  Note the RBF branch: the
default is applied through `gammaValue ?? …`, i.e. only when the supplied
gamma is null — a supplied value is used whatever its sign.  `Math.sqrt`
is embedded as `Real.sqrt` (on a negative argument JavaScript yields `NaN`
and the embedding yields `0`; both differ from every genuine sigma, and no
theorem below depends on which junk value is produced). -/
noncomputable def resolveKernelOptions (kernel : KernelKey) (gammaValue : Option ℝ)
    (dimension : ℕ) : Option KernelOptions :=
  match kernel with
  | .RBF =>
    let effectiveGamma := gammaValue.getD (1 / max 1 (dimension : ℝ))
    let sigma := Real.sqrt (1 / (2 * effectiveGamma))
    some (.rbf sigma)
  | .POLY => some (.poly 3 1 1)
  | .SIGMOID => some (.sigmoid 1 1)
  | .LINEAR => none

/-- The gamma text-input handler (page.tsx 486–500): an empty entry stores
null, and a parsed value is stored only when finite and strictly positive —
everything else is stored as null. -/
def gammaFromInput (raw : String) : Option ℚ :=
  if raw.length = 0 then none
  else
    match jsNumber raw with
    | .fin v => if 0 < v then some v else none
    | _ => none

/-- Follows the spec's words, not the source (refinement target, §4.2):
effective gamma = user gamma if provided and > 0, otherwise `1 / max(1, D)`. -/
noncomputable def specEffectiveGamma (gamma : Option ℝ) (dimension : ℕ) : ℝ :=
  match gamma with
  | some g => if 0 < g then g else 1 / max 1 (dimension : ℝ)
  | none => 1 / max 1 (dimension : ℝ)

/-! ### One-vs-rest training (`trainModel`) and the decision loop

The binary solver is the out-of-scope collaborator: a `Classifier` is an
opaque handle exposing `marginOne` (may be non-finite) and `predictOne`,
and training is an abstract capability passed in as `trainFn`. -/

/-- Opaque handle to a trained binary classifier (capability interface of
spec §6 / `ml-svm.d.ts` 34–43). -/
structure Classifier where
  marginOne : List ℚ → JSQ
  predictOne : List ℚ → JSQ

/-- One `(label, svm)` pair of the one-vs-rest model (page.tsx 11–14). -/
structure TrainedModel where
  label : String
  svm : Classifier

/-- The solver options `trainModel` builds (page.tsx 224–231). -/
structure SVMOptions where
  C : ℚ
  tol : ℚ
  maxPasses : ℕ
  maxIterations : ℕ
  kernel : SVMKernel
  kernelOptions : Option KernelOptions

/-- The options record of page.tsx 224–231: cost, fixed `tol = 1e-4`,
`maxPasses = 10`, `maxIterations = 10000`, the mapped kernel name and the
resolved kernel options. -/
noncomputable def mkSVMOptions (cost : ℚ) (kernel : KernelKey) (gamma : Option ℝ)
    (dimension : ℕ) : SVMOptions :=
  { C := cost
    tol := 1 / 10000
    maxPasses := 10
    maxIterations := 10000
    kernel := KERNEL_MAP kernel
    kernelOptions := resolveKernelOptions kernel gamma dimension }

/-- The per-label loop of page.tsx 220–234: for each target label build the
±1 binary label vector, train, and collect the pairs in label order; a
failing training step aborts the whole loop. -/
def trainLoop (trainFn : List (List ℚ) → List Int → SVMOptions → Except String Classifier)
    (features : List (List ℚ)) (labels : List String) (opts : SVMOptions) :
    List String → Except String (List TrainedModel)
  | [] => .ok []
  | targetLabel :: rest =>
    let binaryLabels := labels.map fun v => if v = targetLabel then (1 : Int) else -1
    match trainFn features binaryLabels opts with
    | .error e => .error e
    | .ok svm =>
      match trainLoop trainFn features labels opts rest with
      | .error e => .error e
      | .ok ms => .ok (⟨targetLabel, svm⟩ :: ms)

/-- Evaluation of `Array.from(new Set(labels))` (page.tsx 202): distinct labels in
first-seen order. -/
def uniqueLabelsOf (labels : List String) : List String :=
  labels.foldl (fun acc v => if v ∈ acc then acc else acc ++ [v]) []

/-- The training core of `trainModel` (page.tsx 195–237), taking the already
extracted matrix and labels: the three guards in source order, then the
one-vs-rest loop over the distinct labels. -/
noncomputable def trainModel
    (trainFn : List (List ℚ) → List Int → SVMOptions → Except String Classifier)
    (features : List (List ℚ)) (labels : List String) (kernel : KernelKey)
    (gamma : Option ℝ) (cost : ℚ) : Except String (List TrainedModel) :=
  if features.length = 0 then .error "No training data available."
  else
    let uniqueLabels := uniqueLabelsOf labels
    if uniqueLabels.length < 2 then .error "At least two unique labels are required."
    else
      let dimension := (features.head?.getD []).length
      if dimension = 0 then .error "Select at least one feature column."
      else
        trainLoop trainFn features labels (mkSVMOptions cost kernel gamma dimension) uniqueLabels

/-- One classifier's score (page.tsx 293–296): the margin when finite,
otherwise the ±1 prediction used directly as a score. -/
def scoreOne (c : Classifier) (vector : List ℚ) : JSQ :=
  let margin := c.marginOne vector
  if margin.isFinite then margin else c.predictOne vector

/-- One iteration of the best-score scan (page.tsx 297–300). -/
def decideStep (vector : List ℚ) (best : String × JSQ) (model : TrainedModel) :
    String × JSQ :=
  let score := scoreOne model.svm vector
  if jsGt score best.2 then (model.label, score) else best

/-- The decision loop of `handlePredict` (page.tsx 290–301): scan the models
in order starting from the sentinel `("", -Infinity)` and keep the strictly
best score. -/
def decisionLoop (models : List TrainedModel) (vector : List ℚ) : String :=
  (models.foldl (decideStep vector) ("", JSQ.negInf)).1

/-! ### Proof-side auxiliary definitions -/

/-- Proof-side argmax fold over already finite scores. -/
def bestFold : List (String × ℚ) → String × ℚ → String × ℚ
  | [], acc => acc
  | p :: ps, acc => bestFold ps (if acc.2 < p.2 then p else acc)

/-- Labels paired with their (finite) scores, in model order. -/
def pairsOf (models : List TrainedModel) (vector : List ℚ) : List (String × ℚ) :=
  models.map fun m => (m.label, toQ (scoreOne m.svm vector))

instance {ε α : Type} [DecidableEq ε] [DecidableEq α] : DecidableEq (Except ε α) := fun a b =>
  match a, b with
  | .ok x, .ok y =>
    if h : x = y then .isTrue (by rw [h]) else .isFalse (by intro hc; cases hc; exact h rfl)
  | .error x, .error y =>
    if h : x = y then .isTrue (by rw [h]) else .isFalse (by intro hc; cases hc; exact h rfl)
  | .ok _, .error _ => .isFalse (by intro hc; cases hc)
  | .error _, .ok _ => .isFalse (by intro hc; cases hc)

/-! ### Concrete objects used by witness theorems -/

/-- Concrete classifier for witnesses: constant finite scores. -/
def tieClassifier : Classifier := ⟨fun _ => JSQ.fin 1, fun _ => JSQ.fin 1⟩

/-- Concrete two-label model with equal scores for witnesses. -/
def tieModels : List TrainedModel := [⟨"a", tieClassifier⟩, ⟨"b", tieClassifier⟩]

/-- Concrete models whose margins are all non-finite, for the fallback path. -/
def nanModels : List TrainedModel :=
  [⟨"a", ⟨fun _ => JSQ.nan, fun _ => JSQ.fin (-1)⟩⟩,
   ⟨"b", ⟨fun _ => JSQ.nan, fun _ => JSQ.fin 1⟩⟩]

/-- Concrete total training capability for witnesses. -/
def constTrain : List (List ℚ) → List Int → SVMOptions → Classifier :=
  fun _ _ _ => tieClassifier

/-! ### Helper lemmas on the decision loop -/

lemma exists_fin_of_isFinite {a : JSQ} (h : a.isFinite = true) : ∃ s, a = .fin s := by
  cases a with
  | fin s => exact ⟨s, rfl⟩
  | nan => simp [JSQ.isFinite] at h
  | inf => simp [JSQ.isFinite] at h
  | negInf => simp [JSQ.isFinite] at h

lemma jsGt_fin_fin (x y : ℚ) : jsGt (.fin x) (.fin y) = decide (y < x) := rfl

lemma jsGt_fin_negInf (x : ℚ) : jsGt (.fin x) .negInf = true := rfl

/-- Under finiteness of all scores, the source fold from a finite
accumulator agrees with `bestFold`. -/
lemma foldl_decideStep_fin (vector : List ℚ) (models : List TrainedModel)
    (bl : String) (b : ℚ)
    (hfin : ∀ m ∈ models, (scoreOne m.svm vector).isFinite = true) :
    models.foldl (decideStep vector) (bl, JSQ.fin b) =
      ((bestFold (pairsOf models vector) (bl, b)).1,
        JSQ.fin (bestFold (pairsOf models vector) (bl, b)).2) := by
  induction models generalizing bl b with
  | nil => simp [bestFold, pairsOf]
  | cons m rest ih =>
    have hm : (scoreOne m.svm vector).isFinite = true := hfin m (by simp)
    obtain ⟨s, hs⟩ := exists_fin_of_isFinite hm
    have hrest : ∀ x ∈ rest, (scoreOne x.svm vector).isFinite = true :=
      fun x hx => hfin x (by simp [hx])
    rw [List.foldl_cons]
    by_cases hbs : b < s
    · have hstep : decideStep vector (bl, JSQ.fin b) m = (m.label, JSQ.fin s) := by
        simp [decideStep, hs, jsGt_fin_fin, hbs]
      rw [hstep, ih m.label s hrest]
      simp [pairsOf, bestFold, hs, toQ, hbs]
    · have hstep : decideStep vector (bl, JSQ.fin b) m = (bl, JSQ.fin b) := by
        simp [decideStep, hs, jsGt_fin_fin, hbs]
      rw [hstep, ih bl b hrest]
      simp [pairsOf, bestFold, hs, toQ, hbs]

/-- Under finiteness, the whole decision loop on a nonempty model list is
`bestFold` seeded with the first pair. -/
lemma decisionLoop_cons_fin (m : TrainedModel) (rest : List TrainedModel)
    (vector : List ℚ)
    (hfin : ∀ x ∈ m :: rest, (scoreOne x.svm vector).isFinite = true) :
    decisionLoop (m :: rest) vector =
      (bestFold (pairsOf rest vector) (m.label, toQ (scoreOne m.svm vector))).1 := by
  have hm : (scoreOne m.svm vector).isFinite = true := hfin m (by simp)
  obtain ⟨s, hs⟩ := exists_fin_of_isFinite hm
  have hrest : ∀ x ∈ rest, (scoreOne x.svm vector).isFinite = true :=
    fun x hx => hfin x (by simp [hx])
  unfold decisionLoop
  rw [List.foldl_cons]
  have hstep : decideStep vector ("", JSQ.negInf) m = (m.label, JSQ.fin s) := by
    simp [decideStep, hs, jsGt_fin_negInf]
  rw [hstep, foldl_decideStep_fin vector rest m.label s hrest, hs]
  simp [toQ]

/-- Fold `bestFold` either keeps the accumulator (when nothing strictly beats it)
or lands on the first strict maximizer of the list. -/
lemma bestFold_spec (ps : List (String × ℚ)) (acc : String × ℚ) :
    (bestFold ps acc = acc ∧ ∀ p ∈ ps, p.2 ≤ acc.2) ∨
    (∃ i, ∃ hi : i < ps.length,
      bestFold ps acc = ps.get ⟨i, hi⟩ ∧ acc.2 < (ps.get ⟨i, hi⟩).2 ∧
      (∀ j (hj : j < ps.length), (ps.get ⟨j, hj⟩).2 ≤ (ps.get ⟨i, hi⟩).2) ∧
      (∀ j (hj : j < ps.length), j < i → (ps.get ⟨j, hj⟩).2 < (ps.get ⟨i, hi⟩).2)) := by
  induction ps generalizing acc with
  | nil => left; exact ⟨rfl, by simp⟩
  | cons p rest ih =>
    by_cases hb : acc.2 < p.2
    · have hstep : bestFold (p :: rest) acc = bestFold rest p := by simp [bestFold, hb]
      rcases ih p with ⟨heq, hle⟩ | ⟨i, hi, heq, hgt, hmax, hfirst⟩
      · right
        refine ⟨0, by simp, ?_, ?_, ?_, ?_⟩
        · rw [hstep, heq]; rfl
        · exact hb
        · intro j hj
          rcases j with _ | k
          · exact le_refl _
          · exact hle _ (List.get_mem rest k (Nat.lt_of_succ_lt_succ hj))
        · intro j hj hj0
          omega
      · right
        refine ⟨i + 1, by simpa using Nat.succ_lt_succ hi, ?_, ?_, ?_, ?_⟩
        · rw [hstep, heq]; rfl
        · exact lt_trans hb hgt
        · intro j hj
          rcases j with _ | k
          · exact le_of_lt hgt
          · exact hmax k (Nat.lt_of_succ_lt_succ hj)
        · intro j hj hji
          rcases j with _ | k
          · exact hgt
          · exact hfirst k (Nat.lt_of_succ_lt_succ hj) (Nat.lt_of_succ_lt_succ hji)
    · have hstep : bestFold (p :: rest) acc = bestFold rest acc := by simp [bestFold, hb]
      rcases ih acc with ⟨heq, hle⟩ | ⟨i, hi, heq, hgt, hmax, hfirst⟩
      · left
        refine ⟨by rw [hstep, heq], ?_⟩
        intro q hq
        rcases List.mem_cons.mp hq with hq | hq
        · rw [hq]; exact not_lt.mp hb
        · exact hle q hq
      · right
        refine ⟨i + 1, by simpa using Nat.succ_lt_succ hi, ?_, ?_, ?_, ?_⟩
        · rw [hstep, heq]; rfl
        · exact hgt
        · intro j hj
          rcases j with _ | k
          · exact le_of_lt (lt_of_le_of_lt (not_lt.mp hb) hgt)
          · exact hmax k (Nat.lt_of_succ_lt_succ hj)
        · intro j hj hji
          rcases j with _ | k
          · exact lt_of_le_of_lt (not_lt.mp hb) hgt
          · exact hfirst k (Nat.lt_of_succ_lt_succ hj) (Nat.lt_of_succ_lt_succ hji)

lemma pairsOf_length (models : List TrainedModel) (vector : List ℚ) :
    (pairsOf models vector).length = models.length := List.length_map _ _

lemma pairsOf_get (models : List TrainedModel) (vector : List ℚ) (k : ℕ)
    (hk : k < (pairsOf models vector).length) :
    (pairsOf models vector).get ⟨k, hk⟩ =
      ((models.get ⟨k, by simpa [pairsOf_length] using hk⟩).label,
        toQ (scoreOne (models.get ⟨k, by simpa [pairsOf_length] using hk⟩).svm vector)) := by
  simp [pairsOf, List.get_eq_getElem]

/-- The decision loop on a nonempty model list with all scores finite lands
on the first index attaining the maximal score. -/
lemma decisionLoop_argmax (models : List TrainedModel) (vector : List ℚ)
    (hlen : 0 < models.length)
    (hfin : ∀ m ∈ models, (scoreOne m.svm vector).isFinite = true) :
    ∃ i, ∃ hi : i < models.length,
      decisionLoop models vector = (models.get ⟨i, hi⟩).label ∧
      (∀ j (hj : j < models.length),
        toQ (scoreOne (models.get ⟨j, hj⟩).svm vector) ≤
          toQ (scoreOne (models.get ⟨i, hi⟩).svm vector)) ∧
      (∀ j (hj : j < models.length), j < i →
        toQ (scoreOne (models.get ⟨j, hj⟩).svm vector) <
          toQ (scoreOne (models.get ⟨i, hi⟩).svm vector)) := by
  cases models with
  | nil => exact absurd hlen (by simp)
  | cons m rest =>
    rw [decisionLoop_cons_fin m rest vector hfin]
    rcases bestFold_spec (pairsOf rest vector) (m.label, toQ (scoreOne m.svm vector)) with
      ⟨heq, hle⟩ | ⟨i, hi, heq, hgt, hmax, hfirst⟩
    · refine ⟨0, by simp, by rw [heq]; rfl, ?_, ?_⟩
      · intro j hj
        rcases j with _ | k
        · exact le_refl _
        · have hk : k < (pairsOf rest vector).length := by
            simpa [pairsOf_length] using Nat.lt_of_succ_lt_succ hj
          have := hle _ (List.get_mem (pairsOf rest vector) k hk)
          rw [pairsOf_get] at this
          exact this
      · intro j hj hj0
        omega
    · have hi' : i < rest.length := by simpa [pairsOf_length] using hi
      refine ⟨i + 1, by simpa using Nat.succ_lt_succ hi', ?_, ?_, ?_⟩
      · rw [heq, pairsOf_get]; rfl
      · intro j hj
        rcases j with _ | k
        · have := le_of_lt hgt
          rw [pairsOf_get] at this
          exact this
        · have hk : k < (pairsOf rest vector).length := by
            simpa [pairsOf_length] using Nat.lt_of_succ_lt_succ hj
          have := hmax k hk
          rw [pairsOf_get, pairsOf_get] at this
          exact this
      · intro j hj hji
        rcases j with _ | k
        · have := hgt
          rw [pairsOf_get] at this
          exact this
        · have hk : k < (pairsOf rest vector).length := by
            simpa [pairsOf_length] using Nat.lt_of_succ_lt_succ hj
          have := hfirst k hk (Nat.lt_of_succ_lt_succ hji)
          rw [pairsOf_get, pairsOf_get] at this
          exact this


/-! ### Helper lemmas on extraction -/

lemma rowFeatures_error_mem {cols : List String} {row : Row} {e : ExtractError}
    (h : rowFeatures cols row = .error e) :
    ∃ c ∈ cols, e = .nonNumeric c ∧ (cellNumber row c).isFinite = false := by
  induction cols with
  | nil => simp [rowFeatures] at h
  | cons c cs ih =>
    rw [rowFeatures] at h
    cases hc : cellNumber row c with
    | fin v =>
      rw [hc] at h
      cases hrec : rowFeatures cs row with
      | ok vs => rw [hrec] at h; simp [Except.map] at h
      | error e' =>
        rw [hrec] at h
        simp [Except.map] at h
        subst h
        obtain ⟨c', hc', he', hfin⟩ := ih hrec
        exact ⟨c', by simp [hc'], he', hfin⟩
    | nan =>
      rw [hc] at h
      simp at h
      exact ⟨c, by simp, by rw [h], by rw [hc]; rfl⟩
    | inf =>
      rw [hc] at h
      simp at h
      exact ⟨c, by simp, by rw [h], by rw [hc]; rfl⟩
    | negInf =>
      rw [hc] at h
      simp at h
      exact ⟨c, by simp, by rw [h], by rw [hc]; rfl⟩

lemma rowFeatures_ne_ok {cols : List String} {row : Row} {c : String}
    (hc : c ∈ cols) (hbad : (cellNumber row c).isFinite = false) {vs : List ℚ} :
    rowFeatures cols row ≠ .ok vs := by
  induction cols generalizing vs with
  | nil => simp at hc
  | cons c0 cs ih =>
    intro h
    rw [rowFeatures] at h
    cases hc0 : cellNumber row c0 with
    | fin v =>
      rw [hc0] at h
      rcases List.mem_cons.mp hc with rfl | hmem
      · rw [hc0] at hbad; simp [JSQ.isFinite] at hbad
      · cases hrec : rowFeatures cs row with
        | ok vs' => exact ih hmem hrec
        | error e => rw [hrec] at h; simp [Except.map] at h
    | nan => rw [hc0] at h; simp at h
    | inf => rw [hc0] at h; simp at h
    | negInf => rw [hc0] at h; simp at h


lemma rowFeatures_error_nonNumeric {cols : List String} {row : Row} {c : String}
    (h : rowFeatures cols row = .error (.nonNumeric c)) :
    (cellNumber row c).isFinite = false := by
  obtain ⟨c', _, he, hfin⟩ := rowFeatures_error_mem h
  cases he
  exact hfin

lemma extractRows_error_mem {cols : List String} {lab : String} {rows : List Row}
    {e : ExtractError} (h : extractRows cols lab rows = .error e) :
    ∃ c ∈ cols, e = .nonNumeric c := by
  induction rows with
  | nil => simp [extractRows] at h
  | cons row rest ih =>
    rw [extractRows] at h
    cases hrow : rowFeatures cols row with
    | error e' =>
      rw [hrow] at h
      simp at h
      subst h
      obtain ⟨c, hc, he⟩ := rowFeatures_error_mem hrow
      exact ⟨c, hc, he.1⟩
    | ok fv =>
      rw [hrow] at h
      cases hrec : extractRows cols lab rest with
      | error e' =>
        rw [hrec] at h
        simp at h
        subst h
        exact ih hrec
      | ok p =>
        rw [hrec] at h
        obtain ⟨fs, ls⟩ := p
        simp at h

lemma extractRows_fail {cols : List String} (lab : String) {rows : List Row}
    {r : Row} {c : String} (hr : r ∈ rows) (hc : c ∈ cols)
    (hbad : (cellNumber r c).isFinite = false) :
    ∃ c' ∈ cols, extractRows cols lab rows = .error (.nonNumeric c') := by
  induction rows with
  | nil => simp at hr
  | cons row rest ih =>
    rw [extractRows]
    cases hrow : rowFeatures cols row with
    | error e =>
      obtain ⟨c', hc', he, _⟩ := rowFeatures_error_mem hrow
      exact ⟨c', hc', by rw [he]⟩
    | ok fv =>
      rcases List.mem_cons.mp hr with rfl | hmem
      · exact absurd hrow (rowFeatures_ne_ok hc hbad)
      · obtain ⟨c', hc', hrec⟩ := ih hmem
        rw [hrec]
        exact ⟨c', hc', rfl⟩


/-! ### Helper lemmas on training -/

lemma trainLoop_ok_of_total
    (trainOk : List (List ℚ) → List Int → SVMOptions → Classifier)
    (features : List (List ℚ)) (labels : List String) (opts : SVMOptions)
    (lst : List String) :
    trainLoop (fun f b o => .ok (trainOk f b o)) features labels opts lst =
      .ok (lst.map fun L =>
        ⟨L, trainOk features (labels.map fun v => if v = L then 1 else -1) opts⟩) := by
  induction lst with
  | nil => rfl
  | cons L rest ih => rw [trainLoop, ih]; rfl

lemma trainLoop_error_of_mem
    (trainFn : List (List ℚ) → List Int → SVMOptions → Except String Classifier)
    (features : List (List ℚ)) (labels : List String) (opts : SVMOptions)
    {lst : List String} {L : String} {e : String} (hmem : L ∈ lst)
    (hfail : trainFn features (labels.map fun v => if v = L then 1 else -1) opts = .error e) :
    ∃ msg, trainLoop trainFn features labels opts lst = .error msg := by
  induction lst with
  | nil => simp at hmem
  | cons L0 rest ih =>
    rw [trainLoop]
    cases h0 : trainFn features (labels.map fun v => if v = L0 then 1 else -1) opts with
    | error e0 => exact ⟨e0, rfl⟩
    | ok svm =>
      rcases List.mem_cons.mp hmem with rfl | hmem'
      · rw [h0] at hfail
        cases hfail
      · obtain ⟨msg, hmsg⟩ := ih hmem'
        rw [hmsg]
        exact ⟨msg, rfl⟩

lemma scoreOne_finite_of_pm (c : Classifier) (vector : List ℚ)
    (h : c.predictOne vector = .fin 1 ∨ c.predictOne vector = .fin (-1)) :
    (scoreOne c vector).isFinite = true := by
  simp only [scoreOne]
  by_cases hm : (c.marginOne vector).isFinite = true
  · rw [if_pos hm]
    exact hm
  · rw [if_neg hm]
    rcases h with h | h <;> rw [h] <;> rfl

/-! ## Claim theorems -/

/-- Claim C1, counterexample: `resolveKernelOptions` itself does not reject a
supplied non-positive gamma — with gamma `-1` and dimension `4` it returns a
KernelSpec different from the `gamma = null` one, because the default is
applied only through the null-coalescing operator. -/
theorem c1_counterexample :
    resolveKernelOptions .RBF (some (-1)) 4 ≠ resolveKernelOptions .RBF none 4 := by
  have h1 : Real.sqrt (1 / (2 * ((-1) : ℝ))) = 0 :=
    Real.sqrt_eq_zero_of_nonpos (by norm_num)
  have h2 : (0 : ℝ) < Real.sqrt (1 / (2 * (1 / max 1 ((4 : ℕ) : ℝ)))) := by
    apply Real.sqrt_pos.mpr
    have hm : max (1 : ℝ) ((4 : ℕ) : ℝ) = 4 := by
      rw [max_eq_right]
      · norm_num
      · norm_num
    rw [hm]
    norm_num
  intro h
  simp only [resolveKernelOptions, Option.getD, Option.some.injEq,
    KernelOptions.rbf.injEq] at h
  rw [h] at h1
  exact absurd h1 (ne_of_gt h2)

/-- Claim C1, amended: the rejection of a non-positive gamma happens in the
gamma input handler, which stores such entries as null; composing the handler
with the resolver, a user-typed `-1` yields, for every dimension, the same
KernelSpec as a blank (null) gamma. -/
theorem c1_amended (d : ℕ) :
    gammaFromInput "-1" = none ∧
    resolveKernelOptions .RBF (Option.map (fun q : ℚ => (q : ℝ)) (gammaFromInput "-1")) d =
      resolveKernelOptions .RBF none d := by
  have h : gammaFromInput "-1" = none := by decide
  refine ⟨h, ?_⟩
  rw [h]
  rfl

/-- Claim C1, witness: the amended theorem at dimension 4. -/
theorem c1_witness :
    gammaFromInput "-1" = none ∧
    resolveKernelOptions .RBF (Option.map (fun q : ℚ => (q : ℝ)) (gammaFromInput "-1")) 4 =
      resolveKernelOptions .RBF none 4 :=
  c1_amended 4

/-- Claim C2: for a nonempty model list whose fallback predictions are ±1
codes, the decision loop returns the label of the first index attaining the
maximal score (margin when finite, prediction code otherwise) — every other
score is no larger, and every earlier score is strictly smaller. -/
theorem c2_theorem (models : List TrainedModel) (vector : List ℚ)
    (hlen : 0 < models.length)
    (hpm : ∀ j (hj : j < models.length),
      (models.get ⟨j, hj⟩).svm.predictOne vector = .fin 1 ∨
        (models.get ⟨j, hj⟩).svm.predictOne vector = .fin (-1)) :
    ∃ i, ∃ hi : i < models.length,
      decisionLoop models vector = (models.get ⟨i, hi⟩).label ∧
      (∀ j (hj : j < models.length),
        toQ (scoreOne (models.get ⟨j, hj⟩).svm vector) ≤
          toQ (scoreOne (models.get ⟨i, hi⟩).svm vector)) ∧
      (∀ j (hj : j < models.length), j < i →
        toQ (scoreOne (models.get ⟨j, hj⟩).svm vector) <
          toQ (scoreOne (models.get ⟨i, hi⟩).svm vector)) := by
  have hfin : ∀ m ∈ models, (scoreOne m.svm vector).isFinite = true := by
    intro m hm
    obtain ⟨⟨j, hj⟩, hg⟩ := List.mem_iff_get.mp hm
    rw [← hg]
    exact scoreOne_finite_of_pm _ _ (hpm j hj)
  exact decisionLoop_argmax models vector hlen hfin

/-- Claim C2, witness: the tie-break instance — two models with identical
finite scores; the theorem applies and the winning index exists. -/
theorem c2_witness :
    ∃ i, ∃ hi : i < tieModels.length,
      decisionLoop tieModels [0] = (tieModels.get ⟨i, hi⟩).label ∧
      (∀ j (hj : j < tieModels.length),
        toQ (scoreOne (tieModels.get ⟨j, hj⟩).svm [0]) ≤
          toQ (scoreOne (tieModels.get ⟨i, hi⟩).svm [0])) ∧
      (∀ j (hj : j < tieModels.length), j < i →
        toQ (scoreOne (tieModels.get ⟨j, hj⟩).svm [0]) <
          toQ (scoreOne (tieModels.get ⟨i, hi⟩).svm [0])) :=
  c2_theorem tieModels [0] (by decide) (by decide)

/-- Claim C3: with a nonempty matrix of nonzero dimension and a total
training capability, `trainModel` fails with the insufficient-labels error
exactly when there are fewer than two distinct labels, and otherwise returns
one `(label, classifier)` pair per distinct label, in first-seen order, each
classifier trained on the ±1 one-vs-rest encoding of that label. -/
theorem c3_theorem (trainOk : List (List ℚ) → List Int → SVMOptions → Classifier)
    (features : List (List ℚ)) (labels : List String) (kernel : KernelKey)
    (gamma : Option ℝ) (cost : ℚ)
    (hne : features.length ≠ 0)
    (hdim : (features.head?.getD []).length ≠ 0) :
    trainModel (fun f b o => .ok (trainOk f b o)) features labels kernel gamma cost =
      if (uniqueLabelsOf labels).length < 2 then
        .error "At least two unique labels are required."
      else
        .ok ((uniqueLabelsOf labels).map fun L =>
          ⟨L, trainOk features (labels.map fun v => if v = L then 1 else -1)
              (mkSVMOptions cost kernel gamma (features.head?.getD []).length)⟩) := by
  simp only [trainModel]
  rw [if_neg hne]
  by_cases hu : (uniqueLabelsOf labels).length < 2
  · rw [if_pos hu, if_pos hu]
  · rw [if_neg hu, if_neg hu, if_neg hdim]
    exact trainLoop_ok_of_total trainOk features labels _ _

/-- Claim C3, witness: a two-row, two-label dataset trains to the two
expected one-vs-rest pairs. -/
theorem c3_witness :
    trainModel (fun f b o => .ok (constTrain f b o)) [[1], [2]] ["a", "b"] .LINEAR none 1 =
      if (uniqueLabelsOf ["a", "b"]).length < 2 then
        .error "At least two unique labels are required."
      else
        .ok ((uniqueLabelsOf ["a", "b"]).map fun L =>
          ⟨L, constTrain [[1], [2]] (["a", "b"].map fun v => if v = L then 1 else -1)
              (mkSVMOptions 1 .LINEAR none
                (([[1], [2]] : List (List ℚ)).head?.getD []).length)⟩) :=
  c3_theorem constTrain [[1], [2]] ["a", "b"] .LINEAR none 1 (by decide) (by decide)

/-- Claim C4, counterexample: the non-numeric error does not name the failing
row — a dataset failing at row 0 and one failing at row 1 produce the very
same error value, which carries only the column. -/
theorem c4_counterexample :
    computeFeaturesAndLabels [[("x", "foo")], [("x", "1")]] ["x"] "y" =
      .error (.nonNumeric "x") ∧
    computeFeaturesAndLabels [[("x", "1")], [("x", "foo")]] ["x"] "y" =
      .error (.nonNumeric "x") := by
  exact ⟨by decide, by decide⟩

/-- Claim C4, amended: a non-parsable cell in a selected feature column makes
extraction fail outright (no coercion, no row dropping) with an error naming
a failing column — but not the row index. -/
theorem c4_amended (rows : List Row) (cols : List String) (lab : String)
    (r : Row) (c : String) (hr : r ∈ rows) (hc : c ∈ cols) (hlab : lab ≠ "")
    (hbad : (cellNumber r c).isFinite = false) :
    ∃ c' ∈ cols, computeFeaturesAndLabels rows cols lab = .error (.nonNumeric c') := by
  obtain ⟨c', hc', herr⟩ := extractRows_fail lab hr hc hbad
  refine ⟨c', hc', ?_⟩
  rw [computeFeaturesAndLabels, if_neg, herr]
  push_neg
  refine ⟨?_, ?_, hlab⟩
  · intro h0
    rw [List.length_eq_zero] at h0
    subst h0
    simp at hr
  · intro h0
    rw [List.length_eq_zero] at h0
    subst h0
    simp at hc

/-- Claim C4, witness: the amended theorem applied to the concrete dataset
whose first row holds the non-numeric cell. -/
theorem c4_witness :
    ∃ c' ∈ ["x"],
      computeFeaturesAndLabels [[("x", "foo")], [("x", "1")]] ["x"] "y" =
        .error (.nonNumeric c') :=
  c4_amended [[("x", "foo")], [("x", "1")]] ["x"] "y" [("x", "foo")] "x"
    (by decide) (by decide) (by decide) (by decide)

/-- Claim C5: if the external training capability fails on the one-vs-rest
encoding of any distinct label, the whole `trainModel` run fails — no model
value, partial or otherwise, is ever returned. -/
theorem c5_theorem
    (trainFn : List (List ℚ) → List Int → SVMOptions → Except String Classifier)
    (features : List (List ℚ)) (labels : List String) (kernel : KernelKey)
    (gamma : Option ℝ) (cost : ℚ) (L : String) (e : String)
    (hmem : L ∈ uniqueLabelsOf labels)
    (hfail : trainFn features (labels.map fun v => if v = L then 1 else -1)
        (mkSVMOptions cost kernel gamma (features.head?.getD []).length) = .error e) :
    ∃ msg, trainModel trainFn features labels kernel gamma cost = .error msg := by
  simp only [trainModel]
  by_cases h1 : features.length = 0
  · rw [if_pos h1]
    exact ⟨_, rfl⟩
  · rw [if_neg h1]
    by_cases h2 : (uniqueLabelsOf labels).length < 2
    · rw [if_pos h2]
      exact ⟨_, rfl⟩
    · rw [if_neg h2]
      by_cases h3 : (features.head?.getD []).length = 0
      · rw [if_pos h3]
        exact ⟨_, rfl⟩
      · rw [if_neg h3]
        exact trainLoop_error_of_mem trainFn features labels _ hmem hfail

/-- Claim C5, witness: a capability that fails on the first label's binary
vector makes the whole concrete training run fail. -/
theorem c5_witness :
    ∃ msg,
      trainModel
        (fun _ b _ =>
          if b = [(1 : Int), -1] then .error "solver failed" else .ok tieClassifier)
        [[1], [2]] ["a", "b"] .LINEAR none 1 = .error msg :=
  c5_theorem
    (fun _ b _ =>
      if b = [(1 : Int), -1] then .error "solver failed" else .ok tieClassifier)
    [[1], [2]] ["a", "b"] .LINEAR none 1 "a" "solver failed" (by decide) (by rfl)

/-- Claim C6, counterexample: the three precondition failures are not
distinguished by error kind — zero rows and zero feature columns yield the
same combined configuration error, and an absent (but nonempty) label column
is not detected at all: extraction succeeds with label `"undefined"`. -/
theorem c6_counterexample :
    computeFeaturesAndLabels [] ["x"] "y" = .error .configMissing ∧
    computeFeaturesAndLabels [[("x", "1")]] [] "y" = .error .configMissing ∧
    computeFeaturesAndLabels [[("x", "1")]] ["x"] "z" = .ok ([[1]], ["undefined"]) := by
  exact ⟨by decide, by decide, by decide⟩

/-- Claim C6, amended: extraction fails with the single combined
configuration error exactly when the dataset has zero rows, zero selected
feature columns, or an empty label column name. -/
theorem c6_amended (rows : List Row) (cols : List String) (lab : String) :
    computeFeaturesAndLabels rows cols lab = .error .configMissing ↔
      (rows.length = 0 ∨ cols.length = 0 ∨ lab = "") := by
  constructor
  · intro h
    by_contra hneg
    rw [computeFeaturesAndLabels, if_neg hneg] at h
    obtain ⟨c, _, he⟩ := extractRows_error_mem h
    exact ExtractError.noConfusion he
  · intro h
    rw [computeFeaturesAndLabels, if_pos h]

/-- Claim C6, witness: the amended theorem applied to an empty dataset. -/
theorem c6_witness :
    computeFeaturesAndLabels [] ["x"] "y" = .error .configMissing :=
  (c6_amended [] ["x"] "y").mpr (by decide)

/-- Claim C7, counterexample: for a supplied non-positive gamma the resolver
does not compute the spec's effective gamma — with gamma `-2`, dimension `3`,
the returned sigma differs from `sqrt(1 / (2 · specEffectiveGamma))`. -/
theorem c7_counterexample :
    resolveKernelOptions .RBF (some (-2)) 3 ≠
      some (.rbf (Real.sqrt (1 / (2 * specEffectiveGamma (some (-2)) 3)))) := by
  have hspec : specEffectiveGamma (some (-2)) 3 = 1 / max 1 ((3 : ℕ) : ℝ) := by
    simp only [specEffectiveGamma]
    rw [if_neg]
    norm_num
  have h1 : Real.sqrt (1 / (2 * ((-2) : ℝ))) = 0 :=
    Real.sqrt_eq_zero_of_nonpos (by norm_num)
  have h2 : (0 : ℝ) < Real.sqrt (1 / (2 * (1 / max 1 ((3 : ℕ) : ℝ)))) := by
    apply Real.sqrt_pos.mpr
    have hm : max (1 : ℝ) ((3 : ℕ) : ℝ) = 3 := by
      rw [max_eq_right]
      · norm_num
      · norm_num
    rw [hm]
    norm_num
  intro h
  rw [hspec] at h
  simp only [resolveKernelOptions, Option.getD, Option.some.injEq,
    KernelOptions.rbf.injEq] at h
  rw [h] at h1
  exact absurd h1 (ne_of_gt h2)

/-- Claim C7, amended: when the supplied gamma is positive or absent (the
only values the input handler lets through), the resolver matches the spec's
`sigma = sqrt(1 / (2 · effectiveGamma))` with the spec's effective gamma; in
particular null gamma at dimension 4 yields `sigma = sqrt 2`. -/
theorem c7_amended (gamma : Option ℝ) (D : ℕ) (hpos : ∀ g ∈ gamma, 0 < g) :
    resolveKernelOptions .RBF gamma D =
      some (.rbf (Real.sqrt (1 / (2 * specEffectiveGamma gamma D)))) ∧
    resolveKernelOptions .RBF none 4 = some (.rbf (Real.sqrt 2)) := by
  constructor
  · cases gamma with
    | none => rfl
    | some g =>
      have hg : 0 < g := hpos g rfl
      simp [resolveKernelOptions, specEffectiveGamma, hg]
  · have harg : (1 : ℝ) / (2 * (1 / max 1 ((4 : ℕ) : ℝ))) = 2 := by
      have hm : max (1 : ℝ) ((4 : ℕ) : ℝ) = 4 := by
        rw [max_eq_right]
        · norm_num
        · norm_num
      rw [hm]
      norm_num
    simp only [resolveKernelOptions, Option.getD]
    rw [harg]

/-- Claim C7, witness: the amended theorem at gamma 1, dimension 1, with the
positivity hypothesis discharged. -/
theorem c7_witness :
    resolveKernelOptions .RBF (some 1) 1 =
      some (.rbf (Real.sqrt (1 / (2 * specEffectiveGamma (some 1) 1)))) ∧
    resolveKernelOptions .RBF none 4 = some (.rbf (Real.sqrt 2)) :=
  c7_amended (some 1) 1
    (by intro g hg; rw [Option.mem_def, Option.some.injEq] at hg; rw [← hg]; norm_num)

/-- Claim C8: training is deterministic — two `trainModel` runs on identical
matrix, labels, kernel, gamma and cost (through the same capability) yield
models with identical predictions for every query vector. -/
theorem c8_theorem
    (trainFn : List (List ℚ) → List Int → SVMOptions → Except String Classifier)
    (features : List (List ℚ)) (labels : List String) (kernel : KernelKey)
    (gamma : Option ℝ) (cost : ℚ) (vector : List ℚ) (m1 m2 : List TrainedModel)
    (h1 : trainModel trainFn features labels kernel gamma cost = .ok m1)
    (h2 : trainModel trainFn features labels kernel gamma cost = .ok m2) :
    decisionLoop m1 vector = decisionLoop m2 vector := by
  have h : m1 = m2 := by
    have h12 := h1.symm.trans h2
    injection h12
  rw [h]

/-- Claim C8, witness: two identical concrete training runs predict
identically. -/
theorem c8_witness :
    decisionLoop [⟨"a", tieClassifier⟩, ⟨"b", tieClassifier⟩] [0] =
      decisionLoop [⟨"a", tieClassifier⟩, ⟨"b", tieClassifier⟩] [0] :=
  c8_theorem (fun f b o => .ok (constTrain f b o)) [[1], [2]] ["a", "b"] .LINEAR none 1 [0]
    [⟨"a", tieClassifier⟩, ⟨"b", tieClassifier⟩] [⟨"a", tieClassifier⟩, ⟨"b", tieClassifier⟩]
    rfl rfl

/-- Claim C9: an empty-string cell in a selected feature column parses to the
finite number 0 (`Number("")` is 0), so extraction accepts it as the value 0
and never reports that column as non-numeric on its account. -/
theorem c9_empty_cell (cols : List String) (row : Row) (c : String)
    ( _hc : c ∈ cols) (hcell : rowLookup row c = some "") :
    parseFeatureValue "" = .fin 0 ∧ cellNumber row c = .fin 0 ∧
    rowFeatures cols row ≠ .error (.nonNumeric c) := by
  have hpv : parseFeatureValue "" = .fin 0 := by decide
  have hcn : cellNumber row c = .fin 0 := by
    unfold cellNumber
    rw [hcell]
    exact hpv
  refine ⟨hpv, hcn, ?_⟩
  intro h
  have hbad := rowFeatures_error_nonNumeric h
  rw [hcn] at hbad
  simp [JSQ.isFinite] at hbad

/-- Claim C9, witness: a concrete row with an empty cell is accepted as 0. -/
theorem c9_witness :
    parseFeatureValue "" = .fin 0 ∧ cellNumber [("x", "")] "x" = .fin 0 ∧
    rowFeatures ["x"] [("x", "")] ≠ .error (.nonNumeric "x") :=
  c9_empty_cell ["x"] [("x", "")] "x" (by decide) (by decide)

/-- Claim C10: for a nonempty model whose fallback predictions are ±1 codes,
the decision loop always returns the label of some pair of the model — the
initial sentinel never survives, even when every margin is non-finite. -/
theorem c10_theorem (models : List TrainedModel) (vector : List ℚ)
    (hlen : 0 < models.length)
    (hpm : ∀ j (hj : j < models.length),
      (models.get ⟨j, hj⟩).svm.predictOne vector = .fin 1 ∨
        (models.get ⟨j, hj⟩).svm.predictOne vector = .fin (-1)) :
    ∃ m ∈ models, decisionLoop models vector = m.label := by
  have hfin : ∀ m ∈ models, (scoreOne m.svm vector).isFinite = true := by
    intro m hm
    obtain ⟨⟨j, hj⟩, hg⟩ := List.mem_iff_get.mp hm
    rw [← hg]
    exact scoreOne_finite_of_pm _ _ (hpm j hj)
  obtain ⟨i, hi, heq, hmax, hfirst⟩ := decisionLoop_argmax models vector hlen hfin
  exact ⟨models.get ⟨i, hi⟩, List.get_mem models i hi, heq⟩

/-- Claim C10, witness: models whose margins are all `NaN` still produce the
label of one of the pairs through the fallback path. -/
theorem c10_witness :
    ∃ m ∈ nanModels, decisionLoop nanModels [0] = m.label :=
  c10_theorem nanModels [0] (by decide) (by decide)

end SvmPlayground
